import Mathlib

/-!
Verification development for the Gardener repository (admission plugins,
controllers, botanist orchestration and health checking).

Go strings are modelled as `List Char`, Go slices as `List`, Go maps used as
sets or lookup tables as `List`-based membership/lookup, pointers as `Option`,
and fallible functions as `Except`/`Option`.  Machine integers (`int`,
`int32`) are modelled as `Int`; none of the modelled code paths can overflow
in practice and no wrap-around behaviour is relied upon.
-/

namespace Gardener

/-- Go strings, modelled as lists of characters. -/
abbrev Str := List Char

/-! ### ShootValidator: DNS domain uniqueness
(plugin/pkg/shoot validator admission: `validateDNSDomainUniqueness`,
`hasDomainIntersection`) -/

/-- Embeds the dot-prepending step of `hasDomainIntersection`:
`if !strings.HasPrefix(short, ".") { short = fmt.Sprintf(".%s", short) }`. -/
def dotted (s : Str) : Str :=
  if s.head? = some '.' then s else '.' :: s

/-- Embeds `hasDomainIntersection(domainA, domainB string) bool`: true if the
two domains are equal, otherwise the (dot-prepended) shorter one must be a
suffix of the longer one. -/
def hasDomainIntersection (domainA domainB : Str) : Bool :=
  if domainA = domainB then
    true
  else
    let shortLong :=
      if domainA.length > domainB.length then (domainB, domainA) else (domainA, domainB)
    List.isSuffixOf (dotted shortLong.1) shortLong.2

/-- The slice of a `core.Shoot` that `validateDNSDomainUniqueness` inspects:
its name and `spec.dns.domain` (namespace kept because the lister works across
all namespaces; the function itself never reads it). -/
structure ShootDNSEntry where
  name : Str
  namespaceName : Str
  domain : Option Str

/-- The two kinds of field errors `validateDNSDomainUniqueness` can append. -/
inductive DNSUniqError where
  | duplicate
  | forbidden
deriving DecidableEq, Repr

/-- The `spec.dns` section of a shoot: `Domain *string` and `Providers`. -/
structure DNSProvider where
  ptype : Option Str
  primary : Option Bool

/-- The `core.DNS` struct (fields used by the modelled plugins). -/
structure DNSSection where
  domain : Option Str
  providers : List DNSProvider

/-- Embeds the `for _, shoot := range shoots` loop of
`validateDNSDomainUniqueness`: skip shoots with the same name or no domain;
on the first other shoot whose domain equals or intersects the given one,
append the corresponding error and break. -/
def dnsUniqLoop (name dom : Str) : List ShootDNSEntry → List DNSUniqError
  | [] => []
  | s :: rest =>
    if s.name = name then dnsUniqLoop name dom rest
    else
      match s.domain with
      | none => dnsUniqLoop name dom rest
      | some d =>
        if d = dom then [DNSUniqError.duplicate]
        else if hasDomainIntersection d dom then [DNSUniqError.forbidden]
        else dnsUniqLoop name dom rest

/-- Embeds `validateDNSDomainUniqueness(shootLister, name, dns)`: nothing to
check when `dns` or `dns.Domain` is nil, otherwise scan all shoots in the
system. -/
def validateDNSDomainUniqueness (shoots : List ShootDNSEntry) (name : Str)
    (dns : Option DNSSection) : List DNSUniqError :=
  match dns with
  | none => []
  | some d =>
    match d.domain with
    | none => []
    | some dom => dnsUniqLoop name dom shoots

/-- Specification-side predicate: `sub` is a (dot-boundary) subdomain of
`dom`, i.e. `sub` ends with `dom` preceded by a dot (the dot being already
present when `dom` itself starts with one). -/
def IsSubdomainOf (sub dom : Str) : Prop :=
  dotted dom <:+ sub

instance (sub dom : Str) : Decidable (IsSubdomainOf sub dom) := by
  unfold IsSubdomainOf
  infer_instance

/-- Specification-side predicate for claim C1: the two domains are exactly
equal or one is a subdomain of the other. -/
def DomainsIntersect (a b : Str) : Prop :=
  a = b ∨ IsSubdomainOf a b ∨ IsSubdomainOf b a

instance (a b : Str) : Decidable (DomainsIntersect a b) := by
  unfold DomainsIntersect
  infer_instance

/-! ### ShootDNS plugin: default domain assignment
(plugin/pkg/shoot/dns admission: `DNS.Admit`, `assignDefaultDomainIfNeeded`,
`managePrimaryDNSProvider`, `seedDisablesDNS`) -/

/-- A project as seen by the DNS plugin (`GetProject` resolves it from the
shoot's namespace; the lookup itself lives outside the modelled file, so the
resolved project is passed in directly). -/
structure ProjectInfo where
  name : Str

/-- The slice of a `core.Shoot` used by the ShootDNS plugin. -/
structure DNSShoot where
  name : Str
  namespaceName : Str
  seedName : Option Str
  dns : Option DNSSection

/-- A seed as seen by the DNS plugin: its name and the keys of its taints. -/
structure SeedInfo where
  name : Str
  taintKeys : List Str

/-- Errors returned by the modelled `DNS.Admit` path. -/
inductive DNSAdmitError where
  | seedNotFound
  | dnsSectionMustBeNil
  | domainSchemeMismatch
  | domainRequired
  | primaryProviderForbidden
deriving DecidableEq, Repr

/-- The `core.SeedTaintDisableDNS` constant `seed.gardener.cloud/disable-dns`. -/
def seedTaintDisableDNS : Str := "seed.gardener.cloud/disable-dns".toList

/-- The `core.DNSUnmanaged` constant `unmanaged`. -/
def dnsUnmanaged : Str := "unmanaged".toList

/-- Modelled from the spec: the helper `TaintsHave(taints, key)` is not part
of the provided sources (only its table test is); it reports whether some
taint has the given key. -/
def TaintsHave (taintKeys : List Str) (key : Str) : Bool :=
  taintKeys.any (· = key)

/-- Embeds `seedDisablesDNS(seedLister, seedName)`: look the seed up and check
its taints for the disable-DNS key. -/
def seedDisablesDNS (seeds : List SeedInfo) (seedName : Str) : Except DNSAdmitError Bool :=
  match seeds.find? (·.name = seedName) with
  | none => .error .seedNotFound
  | some seed => .ok (TaintsHave seed.taintKeys seedTaintDisableDNS)

/-- Modelled from the spec: the helper `ShootUsesUnmanagedDNS(shoot)` is not
part of the provided sources (only its table test is); it is true when the
shoot's first DNS provider has type `unmanaged`. -/
def ShootUsesUnmanagedDNS (shoot : DNSShoot) : Bool :=
  match shoot.dns with
  | none => false
  | some d =>
    match d.providers with
    | [] => false
    | p :: _ => p.ptype = some dnsUnmanaged

/-- The generated default-domain pattern
`fmt.Sprintf("%s.%s.%s", shoot.Name, project.Name, domain)`. -/
def domainScheme (shootName projectName domain : Str) : Str :=
  shootName ++ '.' :: projectName ++ '.' :: domain

/-- Embeds the `for _, domain := range defaultDomains` loop of
`assignDefaultDomainIfNeeded`: the first default domain that the specified
shoot domain is a dot-suffix of must be matched exactly by the generated
scheme, and a shoot without a domain receives the scheme of the first default
domain.  Returns the domain to assign (if any). -/
def assignLoop (shootName projectName : Str) (shootDomain : Option Str) :
    List Str → Except DNSAdmitError (Option Str)
  | [] => .ok none
  | domain :: rest =>
    match shootDomain with
    | some sd =>
      if List.isSuffixOf ('.' :: domain) sd then
        if sd ≠ domainScheme shootName projectName domain then .error .domainSchemeMismatch
        else .ok none
      else assignLoop shootName projectName shootDomain rest
    | none => .ok (some (domainScheme shootName projectName domain))

/-- The `var shootDomain *string` initialisation of
`assignDefaultDomainIfNeeded`. -/
def shootDomainOf (shoot : DNSShoot) : Option Str :=
  match shoot.dns with
  | none => none
  | some d => d.domain

/-- Embeds `assignDefaultDomainIfNeeded(shoot, projectLister, defaultDomains)`:
runs the loop above and, when a domain was generated, stores it in
`shoot.spec.dns.domain` (creating the DNS section when absent). -/
def assignDefaultDomainIfNeeded (shoot : DNSShoot) (project : ProjectInfo)
    (defaultDomains : List Str) : Except DNSAdmitError DNSShoot :=
  match assignLoop shoot.name project.name (shootDomainOf shoot) defaultDomains with
  | .error e => .error e
  | .ok none => .ok shoot
  | .ok (some generated) =>
    let dns0 := match shoot.dns with
      | none => ({ domain := none, providers := [] } : DNSSection)
      | some d => d
    .ok { shoot with dns := some { dns0 with domain := some generated } }

/-- Modelled from the spec: `FindPrimaryDNSProvider(providers)` is not part of
the provided sources (only its table test is); it returns the first provider
whose `Primary` field is true. -/
def FindPrimaryDNSProvider (providers : List DNSProvider) : Option DNSProvider :=
  providers.find? (·.primary = some true)

/-- Embeds `managePrimaryDNSProvider(dns, defaultDomains)` for a shoot whose
domain is set: using a default domain forbids a primary provider; otherwise
the first provider is marked primary when none is. -/
def managePrimaryDNSProvider (dom : Str) (dns : DNSSection) (defaultDomains : List Str) :
    Except DNSAdmitError DNSSection :=
  let usesDefaultDomain := defaultDomains.any (fun d => List.isSuffixOf ('.' :: d) dom)
  let primary := FindPrimaryDNSProvider dns.providers
  if usesDefaultDomain then
    if primary.isSome then .error .primaryProviderForbidden else .ok dns
  else
    match primary, dns.providers with
    | none, p :: rest => .ok { dns with providers := { p with primary := some true } :: rest }
    | _, _ => .ok dns

/-- Embeds the `DNS.Admit` sequence after the kind/readiness guards: no seed
means no action; a DNS-disabling seed forbids a DNS section; the unmanaged
provider is left alone; otherwise a default domain is assigned if needed, a
domain must then exist, and the primary provider is managed. -/
def dnsAdmit (seeds : List SeedInfo) (project : ProjectInfo) (defaultDomains : List Str)
    (shoot : DNSShoot) : Except DNSAdmitError DNSShoot :=
  match shoot.seedName with
  | none => .ok shoot
  | some sn =>
    match seedDisablesDNS seeds sn with
    | .error e => .error e
    | .ok true => if shoot.dns.isSome then .error .dnsSectionMustBeNil else .ok shoot
    | .ok false =>
      if ShootUsesUnmanagedDNS shoot then .ok shoot
      else
        match assignDefaultDomainIfNeeded shoot project defaultDomains with
        | .error e => .error e
        | .ok shoot' =>
          match shoot'.dns with
          | none => .error .domainRequired
          | some dns =>
            match dns.domain with
            | none => .error .domainRequired
            | some dom =>
              match managePrimaryDNSProvider dom dns defaultDomains with
              | .error e => .error e
              | .ok dns' => .ok { shoot' with dns := some dns' }

/-! ### Health checker: FailedCondition and CheckClusterNodes
The health checker's implementation is not among the provided sources; only
its table tests are.  The definitions below are modelled from the spec and
kept consistent with those tests. -/

/-- Condition status, `gardencorev1beta1.ConditionStatus` (a string in Go;
the four values that occur are modelled as an inductive). -/
inductive ConditionStatus where
  | statusTrue
  | statusFalse
  | statusProgressing
  | statusUnknown
deriving DecidableEq, Repr

/-- A shoot condition: type, status, last transition time (an instant,
modelled as `Int`), reason and message. -/
structure Condition where
  ctype : String
  status : ConditionStatus
  lastTransitionTime : Int
  reason : String
  message : String
deriving DecidableEq, Repr

/-- Modelled from the spec: the helper that rewrites a condition's status,
reason and message (refreshing the transition time when the status changes),
used by `FailedCondition`. -/
def updatedCondition (c : Condition) (status : ConditionStatus) (reason message : String)
    (now : Int) : Condition :=
  { c with
    status := status
    reason := reason
    message := message
    lastTransitionTime := if c.status = status then c.lastTransitionTime else now }

/-- Modelled from the spec: `HealthChecker.FailedCondition` (implementation
not among the provided sources; behaviour fixed by the spec sentence on
condition-threshold state transitions and by the `#FailedCondition` table
test).  `thresholds` is the checker's condition-type → threshold-duration
map. -/
def FailedCondition (thresholds : List (String × Int)) (now : Int) (c : Condition)
    (reason message : String) : Condition :=
  match c.status with
  | .statusTrue =>
    match thresholds.lookup c.ctype with
    | none => updatedCondition c .statusFalse reason message now
    | some _ => updatedCondition c .statusProgressing reason message now
  | .statusProgressing =>
    match thresholds.lookup c.ctype with
    | none => updatedCondition c .statusFalse reason message now
    | some threshold =>
      if now - c.lastTransitionTime ≤ threshold then
        updatedCondition c .statusProgressing reason message now
      else
        updatedCondition c .statusFalse reason message now
  | _ => updatedCondition c .statusFalse reason message now

/-- A node as seen by `CheckClusterNodes`: its name, the value of its
`worker.gardener.cloud/pool` label, and whether its `Ready` condition is
true. -/
structure NodeInfo where
  name : String
  pool : String
  ready : Bool
deriving DecidableEq, Repr

/-- A worker pool: name and the desired machine-count bounds. -/
structure WorkerPool where
  name : String
  minimum : Int
  maximum : Int
deriving DecidableEq, Repr

/-- Modelled from the spec: the per-pool node-health scan of the health
checker — the first node of the pool that is not ready produces a failed
condition with reason `NodeUnhealthy`. -/
def checkNodes (thresholds : List (String × Int)) (now : Int) (c : Condition)
    (nodeList : List NodeInfo) (poolName : String) : Option Condition :=
  match nodeList.find? (fun n => !n.ready) with
  | some _ => some (FailedCondition thresholds now c "NodeUnhealthy"
      ("unhealthy node in worker group " ++ poolName))
  | none => none

/-- Modelled from the spec: `HealthChecker.CheckClusterNodes` (implementation
not among the provided sources; behaviour fixed by the spec sentence on health
aggregation over nodes and the `#CheckClusterNodes` table test).  For each
worker pool, the nodes carrying the pool's label are checked for readiness and
their count compared against the pool's minimum and maximum. -/
def CheckClusterNodes (thresholds : List (String × Int)) (now : Int)
    (workers : List WorkerPool) (c : Condition) (nodes : List NodeInfo) : Option Condition :=
  match workers with
  | [] => none
  | w :: rest =>
    let nodeList := nodes.filter (fun n => n.pool = w.name)
    match checkNodes thresholds now c nodeList w.name with
    | some exitCondition => some exitCondition
    | none =>
      if (nodeList.length : Int) < w.minimum then
        some (FailedCondition thresholds now c "MissingNodes"
          ("not enough worker nodes registered in worker pool " ++ w.name))
      else if (nodeList.length : Int) > w.maximum then
        some (FailedCondition thresholds now c "TooManyNodes"
          ("too many worker nodes registered in worker pool " ++ w.name))
      else
        CheckClusterNodes thresholds now rest c nodes

/-- The number of nodes registered for a worker pool (the length of the node
list filtered by the pool label), as an `Int` for comparison with the pool
bounds. -/
def poolCount (nodes : List NodeInfo) (w : WorkerPool) : Int :=
  ((nodes.filter fun n => n.pool = w.name).length : Int)

/-! ### ShootValidator: machine type and zone constraints
(plugin/pkg/shoot validator admission: `validateMachineTypes`,
`validateZones`, `validateZone`) -/

/-- A `core.MachineType` constraint: its name and the `Usable *bool` flag. -/
structure MachineType where
  name : Str
  usable : Option Bool

/-- A `core.AvailabilityZone` of a cloud-profile region. -/
structure ProfileZone where
  name : Str
  unavailableMachineTypes : List Str
  unavailableVolumeTypes : List Str

/-- A `core.Region` of a cloud profile. -/
structure ProfileRegion where
  name : Str
  zones : List ProfileZone

/-- Embeds the labelled `top:` loop of `validateMachineTypes`: the machine
type is unavailable in at least one zone when some region entry with the
shoot's region name has a zone entry named like one of the worker's zones
listing the type among its `UnavailableMachineTypes`. -/
def unavailableInAtLeastOneZone (regions : List ProfileRegion) (region : Str)
    (zones : List Str) (machineType : Str) : Bool :=
  regions.any fun r =>
    r.name = region &&
      zones.any fun zoneName =>
        r.zones.any fun z =>
          z.name = zoneName && z.unavailableMachineTypes.contains machineType

/-- Specification-side predicate for claim C5: the machine type is listed
among the `UnavailableMachineTypes` of one of the worker's zones in the
shoot's region. -/
def MachineTypeUnavailable (regions : List ProfileRegion) (region : Str)
    (zones : List Str) (machineType : Str) : Prop :=
  ∃ r ∈ regions, r.name = region
    ∧ ∃ zoneName ∈ zones, ∃ z ∈ r.zones, z.name = zoneName
      ∧ machineType ∈ z.unavailableMachineTypes

instance (regions : List ProfileRegion) (region : Str) (zones : List Str)
    (machineType : Str) : Decidable (MachineTypeUnavailable regions region zones machineType) := by
  unfold MachineTypeUnavailable
  infer_instance

/-- Embeds the `for _, t := range constraints` loop of `validateMachineTypes`:
unusable types are skipped, every candidate is skipped when the type is
unavailable in a zone, and the first remaining constraint with the wanted name
accepts. -/
def machineTypeLoop (machineType : Str) (unavailable : Bool) (validValues : List Str) :
    List MachineType → Bool × List Str
  | [] => (false, validValues.reverse)
  | t :: rest =>
    if t.usable = some false then machineTypeLoop machineType unavailable validValues rest
    else if unavailable then machineTypeLoop machineType unavailable validValues rest
    else if t.name = machineType then (true, [])
    else machineTypeLoop machineType unavailable (t.name :: validValues) rest

/-- Embeds `validateMachineTypes(constraints, machineType, oldMachineType,
regions, region, zones)`. -/
def validateMachineTypes (constraints : List MachineType) (machineType oldMachineType : Str)
    (regions : List ProfileRegion) (region : Str) (zones : List Str) : Bool × List Str :=
  if machineType = oldMachineType then (true, [])
  else
    machineTypeLoop machineType
      (unavailableInAtLeastOneZone regions region zones machineType) [] constraints

/-! ### OpenIDConnectPreset plugin
(plugin/pkg/shoot/oidc/openidconnectpreset admission: `Admit`, `filterOIDCs`;
the `ApplyOIDCConfiguration` applier lives outside the provided sources and is
modelled from the spec) -/

/-- An `OpenIDConnectPresetSpec`: the shoot selector (modelled as its
`matchLabels`, matched as in the Kubernetes library conversion), the weight,
and the OIDC configuration it applies, treated as an uninterpreted payload. -/
structure OIDCPresetSpec where
  shootSelector : List (String × String)
  weight : Int
  config : String
deriving DecidableEq, Repr

/-- An `OpenIDConnectPreset` object: name plus spec (only presets of the
shoot's namespace are ever listed, so the namespace is left implicit). -/
structure OIDCPreset where
  name : String
  spec : OIDCPresetSpec
deriving DecidableEq, Repr

/-- The slice of a `core.Shoot` used by the OIDC preset plugin: its labels and
the already-present OIDC configuration (if any) of its kube-apiserver
section. -/
structure OIDCShoot where
  labels : List (String × String)
  oidcConfig : Option String
deriving DecidableEq, Repr

/-- Admission operations (`admission.Create` etc.). -/
inductive Operation where
  | create
  | update
  | delete
  | connect
deriving DecidableEq, Repr

/-- Selector matching as produced by `metav1.LabelSelectorAsSelector` for a
`matchLabels` selector: every selector pair must occur among the shoot's
labels. -/
def selectorMatches (sel : List (String × String)) (lbls : List (String × String)) : Bool :=
  sel.all fun kv => lbls.lookup kv.1 = some kv.2

/-- Embeds the `for _, oidc := range oidcs` loop of `filterOIDCs`: among the
presets whose selector matches the shoot's labels, keep the one with the
greatest weight, ties broken towards the lexicographically greater name. -/
def filterLoop (shoot : OIDCShoot) (matched : Option OIDCPreset) :
    List OIDCPreset → Option OIDCPreset
  | [] => matched
  | oidc :: rest =>
    if !selectorMatches oidc.spec.shootSelector shoot.labels then
      filterLoop shoot matched rest
    else
      match matched with
      | none => filterLoop shoot (some oidc) rest
      | some m =>
        if oidc.spec.weight ≥ m.spec.weight then
          if oidc.spec.weight > m.spec.weight then filterLoop shoot (some oidc) rest
          else if m.name < oidc.name then filterLoop shoot (some oidc) rest
          else filterLoop shoot (some m) rest
        else filterLoop shoot (some m) rest

/-- Embeds `filterOIDCs(oidcs, shoot)` (selector conversion errors cannot
occur for the modelled matchLabels selectors). -/
def filterOIDCs (oidcs : List OIDCPreset) (shoot : OIDCShoot) : Option OIDCPresetSpec :=
  (filterLoop shoot none oidcs).map (·.spec)

/-- Modelled from the spec: `ApplyOIDCConfiguration(shoot, preset)` (the
applier package is not among the provided sources); it writes the preset's
configuration into the shoot. -/
def ApplyOIDCConfiguration (shoot : OIDCShoot) (preset : OIDCPresetSpec) : OIDCShoot :=
  { shoot with oidcConfig := some preset.config }

/-- Embeds `OpenIDConnectPreset.Admit` after the readiness guard, for Shoot
objects: subresource requests and non-CREATE operations are ignored, a shoot
that already specifies an OIDC configuration is ignored, otherwise the best
matching preset (if any) is applied. -/
def oidcAdmit (op : Operation) (subresource : String) (oidcs : List OIDCPreset)
    (shoot : OIDCShoot) : OIDCShoot :=
  if subresource ≠ "" ∨ op ≠ .create then shoot
  else if shoot.oidcConfig.isSome then shoot
  else
    match filterOIDCs oidcs shoot with
    | none => shoot
    | some preset => ApplyOIDCConfiguration shoot preset

/-- Specification-side predicate: preset `p` matches the shoot's labels. -/
def PresetMatches (p : OIDCPreset) (shoot : OIDCShoot) : Prop :=
  selectorMatches p.spec.shootSelector shoot.labels = true

instance (p : OIDCPreset) (shoot : OIDCShoot) : Decidable (PresetMatches p shoot) := by
  unfold PresetMatches
  infer_instance

/-- Specification-side ordering for claim C6: `q` does not beat `r` — it has
strictly smaller weight, or equal weight and a name not lexicographically
greater. -/
def PresetLE (q r : OIDCPreset) : Prop :=
  q.spec.weight < r.spec.weight ∨ (q.spec.weight = r.spec.weight ∧ q.name ≤ r.name)

instance (q r : OIDCPreset) : Decidable (PresetLE q r) := by
  unfold PresetLE
  infer_instance

/-! ### Project lifecycle reconcile
(pkg/controllermanager/controller/project: `defaultControl.reconcile`;
the Kubernetes API calls and chart machinery are host effects, so each
effectful step's outcome is injected through an environment record) -/

/-- Project phases (`gardencorev1beta1.ProjectPhase`). -/
inductive ProjectPhase where
  | noPhase
  | pending
  | ready
  | failed
deriving DecidableEq, Repr

/-- The slice of a `Project` that `defaultControl.reconcile` reads and
writes. -/
structure ProjectState where
  generation : Int
  phase : ProjectPhase
  specNamespace : Option String
  observedGeneration : Int
deriving DecidableEq, Repr

/-- Outcomes of the effectful steps of one `defaultControl.reconcile` run, in
program order.  `Option String` steps carry `some err` on failure;
`reconcileNamespace` yields the reconciled namespace's name on success. -/
structure ReconcileEnv where
  updateStatusPending : Option String
  reconcileNamespace : Except String String
  updateSpecNamespace : Option String
  newChartRenderer : Option String
  newApplier : Option String
  applyChart : Option String
  deleteLegacyMemberBinding : Option String
  deleteLegacyViewerBinding : Option String
  updateStatusReady : Option String
deriving Repr

/-- The tail of `defaultControl.reconcile` after the namespace has been
reconciled and recorded: chart applier creation, RBAC chart application,
legacy role-binding deletion, and the final ready-status update. -/
def reconcileAfterNamespace (env : ReconcileEnv) (generation : Int) (p : ProjectState) :
    ProjectState × Option String :=
  match env.newChartRenderer with
  | some e => ({ p with phase := .failed }, some e)
  | none =>
    match env.newApplier with
    | some e => ({ p with phase := .failed }, some e)
    | none =>
      match env.applyChart with
      | some e => ({ p with phase := .failed }, some e)
      | none =>
        match env.deleteLegacyMemberBinding with
        | some e => ({ p with phase := .failed }, some e)
        | none =>
          match env.deleteLegacyViewerBinding with
          | some e => ({ p with phase := .failed }, some e)
          | none =>
            match env.updateStatusReady with
            | some e => (p, some e)
            | none =>
              ({ p with phase := .ready, observedGeneration := generation }, none)

/-- Embeds `defaultControl.reconcile(project)`: capture the generation, move
an empty phase to Pending, reconcile the namespace, record its name in
`.spec.namespace` when unset, then run the remaining steps.  Every failure of
a listed step sets the phase to Failed and returns that step's error. -/
def projectReconcile (env : ReconcileEnv) (p0 : ProjectState) : ProjectState × Option String :=
  let generation := p0.generation
  match
    (if p0.phase = .noPhase then
      match env.updateStatusPending with
      | some e => .error e
      | none => .ok { p0 with phase := .pending }
    else .ok p0 : Except String ProjectState)
  with
  | .error e => (p0, some e)
  | .ok p =>
    match env.reconcileNamespace with
    | .error e => ({ p with phase := .failed }, some e)
    | .ok namespaceName =>
      match p.specNamespace with
      | none =>
        match env.updateSpecNamespace with
        | some e => ({ p with phase := .failed }, some e)
        | none =>
          reconcileAfterNamespace env generation { p with specNamespace := some namespaceName }
      | some _ => reconcileAfterNamespace env generation p

/-! ### Botanist: stale container-runtime cleanup
(pkg/operation/botanist/containerruntime.go:
`DeleteStaleContainerRuntimeResources`) -/

/-- The slice of an `extensionsv1alpha1.ContainerRuntime` the cleanup reads:
object name, namespace, and `spec.type`. -/
structure ContainerRuntimeRes where
  name : String
  namespaceName : String
  ctype : String
deriving DecidableEq, Repr

/-- Embeds `DeleteStaleContainerRuntimeResources`: the wanted set is the
types of the shoot's configured container runtimes; a delete task (identified
by the target's name and namespace) is created for exactly the deployed
resources whose type is not wanted, in list order; the resulting tasks are
subsequently run in parallel by `flow.Parallel`. -/
def deleteStaleContainerRuntimeTasks (shootContainerRuntimes : List ContainerRuntimeRes)
    (deployed : List ContainerRuntimeRes) : List (String × String) :=
  let wantedContainerRuntimes := shootContainerRuntimes.map (·.ctype)
  deployed.filterMap fun d =>
    if wantedContainerRuntimes.contains d.ctype then none
    else some (d.name, d.namespaceName)

/-! ### ShootValidator: CREATE-only name checks
(plugin/pkg/shoot validator admission: the `admission.Create` switch case of
`ValidateShoot.Admit`) -/

/-- Errors produced by the CREATE-time checks (the first two are bad-request
errors, the third is a forbidden error). -/
inductive CreateCheckError where
  | nameTooLong
  | consecutiveHyphens
  | projectMarkedForDeletion
deriving DecidableEq, Repr

/-- Whether an error of the CREATE-time checks is a bad-request error. -/
def CreateCheckError.isBadRequest : CreateCheckError → Bool
  | .nameTooLong => true
  | .consecutiveHyphens => true
  | .projectMarkedForDeletion => false

/-- Embeds `strings.Contains(project.Name, "--")`. -/
def containsDoubleHyphen : Str → Bool
  | '-' :: '-' :: _ => true
  | _ :: rest => containsDoubleHyphen rest
  | [] => false

/-- Embeds the body of the `case admission.Create:` switch of
`ValidateShoot.Admit`: the combined project+shoot name length limit of 21,
the double-hyphen check on the project name, and the deleting-project
check. -/
def shootCreateChecks (projectName shootName : Str) (projectDeleting : Bool) :
    Option CreateCheckError :=
  if (projectName ++ shootName).length > 21 then some .nameTooLong
  else if containsDoubleHyphen projectName then some .consecutiveHyphens
  else if projectDeleting then some .projectMarkedForDeletion
  else none

/-- Embeds the operation dispatch around those checks: they run only for
CREATE operations. -/
def shootCreateGate (op : Operation) (projectName shootName : Str) (projectDeleting : Bool) :
    Option CreateCheckError :=
  match op with
  | .create => shootCreateChecks projectName shootName projectDeleting
  | _ => none

/-! ### Seed spec update validation
(src/unnamed/part_002: `ValidateSeedSpecUpdate`) -/

/-- The `garden.SeedNetworks` fields checked on update. -/
structure SeedNetworks where
  nodes : Option Str
  pods : Str
  services : Str
deriving DecidableEq

/-- The `garden.SeedBackup` fields checked on update. -/
structure SeedBackup where
  provider : Str
  region : Option Str
deriving DecidableEq

/-- The slice of a `garden.SeedSpec` that `ValidateSeedSpecUpdate` reads. -/
structure SeedSpec where
  networks : SeedNetworks
  backup : Option SeedBackup
deriving DecidableEq

/-- The field paths at which `ValidateSeedSpecUpdate` can report an
immutability error. -/
inductive SeedUpdateErrorPath where
  | networksPods
  | networksServices
  | networksNodes
  | backupProvider
  | backupRegion
  | backup
deriving DecidableEq, Repr

/-- Embeds `apivalidation.ValidateImmutableField(new, old, path)`: one
invalid-field error when the two values differ. -/
def validateImmutableField {α : Type} [DecidableEq α] (newVal oldVal : α)
    (path : SeedUpdateErrorPath) : List SeedUpdateErrorPath :=
  if newVal = oldVal then [] else [path]

/-- Embeds `ValidateSeedSpecUpdate(newSeedSpec, oldSeedSpec, fldPath)`: pods
and services networks are immutable, the nodes network is immutable once set,
and a backup section is immutable in provider and region once present (and
cannot be removed), while it may be added when previously absent. -/
def ValidateSeedSpecUpdate (newSpec oldSpec : SeedSpec) : List SeedUpdateErrorPath :=
  validateImmutableField newSpec.networks.pods oldSpec.networks.pods .networksPods
    ++ validateImmutableField newSpec.networks.services oldSpec.networks.services .networksServices
    ++ (if oldSpec.networks.nodes.isSome then
          validateImmutableField newSpec.networks.nodes oldSpec.networks.nodes .networksNodes
        else [])
    ++ (match oldSpec.backup with
        | none => []
        | some oldBackup =>
          match newSpec.backup with
          | some newBackup =>
            validateImmutableField newBackup.provider oldBackup.provider .backupProvider
              ++ validateImmutableField newBackup.region oldBackup.region .backupRegion
          | none => validateImmutableField newSpec.backup oldSpec.backup .backup)

/-! ## Theorems -/

/-- The dot-prepending step never shortens a string. -/
theorem length_le_dotted (s : Str) : s.length ≤ (dotted s).length := by
  unfold dotted
  split
  · exact le_rfl
  · exact Nat.le_succ _

/-- A dot-prepended string cannot be a suffix of a distinct string that is no
longer than the original. -/
theorem dotted_not_suffix_of_ne {x y : Str} (hxy : x ≠ y) (hlen : y.length ≤ x.length) :
    ¬ dotted x <:+ y := by
  intro h
  have h1 : (dotted x).length ≤ y.length := h.length_le
  unfold dotted at h h1
  by_cases hh : x.head? = some '.'
  · rw [if_pos hh] at h h1
    exact hxy (h.eq_of_length (le_antisymm h1 hlen))
  · rw [if_neg hh] at h1
    simp only [List.length_cons] at h1
    omega

/-- The boolean `hasDomainIntersection` decides exactly the specification
predicate `DomainsIntersect`: equality, or one domain being a dot-boundary
subdomain of the other. -/
theorem hasDomainIntersection_iff_domainsIntersect (a b : Str) :
    hasDomainIntersection a b = true ↔ DomainsIntersect a b := by
  unfold hasDomainIntersection DomainsIntersect IsSubdomainOf
  by_cases hab : a = b
  · simp [hab]
  · rw [if_neg hab]
    by_cases hl : a.length > b.length
    · rw [if_pos hl]
      simp only [List.isSuffixOf_iff_suffix]
      constructor
      · intro h
        exact Or.inr (Or.inl h)
      · rintro (h | h | h)
        · exact absurd h hab
        · exact h
        · exact absurd h (dotted_not_suffix_of_ne hab (le_of_lt hl))
    · rw [if_neg hl]
      simp only [List.isSuffixOf_iff_suffix]
      constructor
      · intro h
        exact Or.inr (Or.inr h)
      · rintro (h | h | h)
        · exact absurd h hab
        · exact absurd h (dotted_not_suffix_of_ne (Ne.symm hab) (Nat.le_of_not_lt hl))
        · exact h

/-- The uniqueness scan returns no error exactly when no other shoot carries
an equal or intersecting domain. -/
theorem dnsUniqLoop_eq_nil_iff (name dom : Str) (shoots : List ShootDNSEntry) :
    dnsUniqLoop name dom shoots = [] ↔
      ∀ s ∈ shoots, s.name ≠ name → ∀ d, s.domain = some d → ¬ DomainsIntersect d dom := by
  induction shoots with
  | nil => simp [dnsUniqLoop]
  | cons s rest ih =>
    obtain ⟨sn, sns, sd⟩ := s
    rw [List.forall_mem_cons]
    by_cases h1 : sn = name
    · have hstep : dnsUniqLoop name dom (⟨sn, sns, sd⟩ :: rest) = dnsUniqLoop name dom rest := by
        simp only [dnsUniqLoop]
        simp [h1]
      rw [hstep, ih]
      constructor
      · exact fun h => ⟨fun hne => absurd h1 hne, h⟩
      · exact fun h => h.2
    · cases sd with
      | none =>
        have hstep : dnsUniqLoop name dom (⟨sn, sns, none⟩ :: rest)
            = dnsUniqLoop name dom rest := by
          simp only [dnsUniqLoop]
          simp [h1]
        rw [hstep, ih]
        constructor
        · exact fun h => ⟨fun _ d hdd => absurd hdd (by simp), h⟩
        · exact fun h => h.2
      | some d =>
        by_cases he : d = dom
        · have hstep : dnsUniqLoop name dom (⟨sn, sns, some d⟩ :: rest)
              = [DNSUniqError.duplicate] := by
            simp only [dnsUniqLoop]
            simp [h1, he]
          rw [hstep]
          refine iff_of_false (by simp) ?_
          rintro ⟨hhead, -⟩
          exact hhead h1 d rfl (Or.inl he)
        · by_cases hi : hasDomainIntersection d dom = true
          · have hstep : dnsUniqLoop name dom (⟨sn, sns, some d⟩ :: rest)
                = [DNSUniqError.forbidden] := by
              simp only [dnsUniqLoop]
              simp [h1, he, hi]
            rw [hstep]
            refine iff_of_false (by simp) ?_
            rintro ⟨hhead, -⟩
            exact hhead h1 d rfl ((hasDomainIntersection_iff_domainsIntersect d dom).mp hi)
          · have hstep : dnsUniqLoop name dom (⟨sn, sns, some d⟩ :: rest)
                = dnsUniqLoop name dom rest := by
              simp only [dnsUniqLoop]
              simp [h1, he, hi]
            rw [hstep, ih]
            constructor
            · refine fun h => ⟨fun _ d' hdd => ?_, h⟩
              cases hdd
              exact fun hint =>
                hi ((hasDomainIntersection_iff_domainsIntersect d dom).mpr hint)
            · exact fun h => h.2

/-- C1: for a shoot admitted with a non-nil `spec.dns.domain`, the
ShootValidator's domain-uniqueness check reports no error exactly when no
other shoot in the system (any namespace, different name) has a domain that is
equal to the given domain or such that either domain is a dot-boundary
subdomain of the other; conversely it reports an error (rejecting the
request) as soon as such a shoot exists. -/
theorem claim_C1 (shoots : List ShootDNSEntry) (name dom : Str)
    (providers : List DNSProvider) :
    validateDNSDomainUniqueness shoots name (some ⟨some dom, providers⟩) = [] ↔
      ∀ s ∈ shoots, s.name ≠ name → ∀ d, s.domain = some d → ¬ DomainsIntersect d dom := by
  unfold validateDNSDomainUniqueness
  exact dnsUniqLoop_eq_nil_iff name dom shoots

/-- Witness for C1 at a concrete input: a different shoot with an unrelated
domain does not block `bar.example.com`. -/
theorem claim_C1_witness :
    validateDNSDomainUniqueness
      [⟨"other".toList, "ns2".toList, some "foo.example.org".toList⟩]
      "mine".toList (some ⟨some "bar.example.com".toList, []⟩) = [] :=
  (claim_C1 [⟨"other".toList, "ns2".toList, some "foo.example.org".toList⟩]
    "mine".toList "bar.example.com".toList []).mpr (by decide)

/-- Default domains that the specified shoot domain is not a dot-suffix of
are skipped by the assignment loop. -/
theorem assignLoop_skip (shootName projectName sd : Str) (ds1 tail : List Str)
    (h : ∀ d' ∈ ds1, List.isSuffixOf ('.' :: d') sd = false) :
    assignLoop shootName projectName (some sd) (ds1 ++ tail)
      = assignLoop shootName projectName (some sd) tail := by
  induction ds1 with
  | nil => rfl
  | cons d' rest ih =>
    have hd' : List.isSuffixOf ('.' :: d') sd = false := h d' (by simp)
    have hrest : ∀ x ∈ rest, List.isSuffixOf ('.' :: x) sd = false :=
      fun x hx => h x (by simp [hx])
    calc assignLoop shootName projectName (some sd) (d' :: (rest ++ tail))
        = assignLoop shootName projectName (some sd) (rest ++ tail) := by
          simp only [assignLoop]
          simp [hd']
      _ = assignLoop shootName projectName (some sd) tail := ih hrest

/-- C2 (amended): for a shoot handled by the DNS-domain assignment of the
ShootDNS plugin, (a) a shoot without a domain gets
`<shoot-name>.<project-name>.<d>` for the first default domain `d`; (b) when
the first default domain (in configured order) that the specified domain is a
dot-suffix of is `d` and the domain is not exactly
`<shoot-name>.<project-name>.<d>`, the request is rejected with a bad-request
scheme-mismatch error; (c) when the domain is exactly that scheme for the
first suffix-matching default domain, the shoot is left unchanged. -/
theorem claim_C2 (shoot : DNSShoot) (project : ProjectInfo) :
    (∀ d rest, shootDomainOf shoot = none →
      ∃ dnsNew, assignDefaultDomainIfNeeded shoot project (d :: rest)
          = .ok { shoot with dns := some dnsNew }
        ∧ dnsNew.domain = some (domainScheme shoot.name project.name d))
    ∧ (∀ ds1 d ds2 sd, shootDomainOf shoot = some sd →
        (∀ d' ∈ ds1, List.isSuffixOf ('.' :: d') sd = false) →
        List.isSuffixOf ('.' :: d) sd = true →
        sd ≠ domainScheme shoot.name project.name d →
        assignDefaultDomainIfNeeded shoot project (ds1 ++ d :: ds2)
          = .error .domainSchemeMismatch)
    ∧ (∀ ds1 d ds2 sd, shootDomainOf shoot = some sd →
        (∀ d' ∈ ds1, List.isSuffixOf ('.' :: d') sd = false) →
        List.isSuffixOf ('.' :: d) sd = true →
        sd = domainScheme shoot.name project.name d →
        assignDefaultDomainIfNeeded shoot project (ds1 ++ d :: ds2) = .ok shoot) := by
  refine ⟨fun d rest hnone => ?_, fun ds1 d ds2 sd hsd hskip hsuf hne => ?_,
    fun ds1 d ds2 sd hsd hskip hsuf heq => ?_⟩
  · unfold assignDefaultDomainIfNeeded
    rw [hnone]
    simp only [assignLoop]
    cases hdns : shoot.dns with
    | none => exact ⟨_, rfl, rfl⟩
    | some d0 => exact ⟨_, rfl, rfl⟩
  · unfold assignDefaultDomainIfNeeded
    rw [hsd, assignLoop_skip shoot.name project.name sd ds1 (d :: ds2) hskip]
    simp only [assignLoop]
    simp [hsuf, hne]
  · unfold assignDefaultDomainIfNeeded
    rw [hsd, assignLoop_skip shoot.name project.name sd ds1 (d :: ds2) hskip]
    simp only [assignLoop]
    subst heq
    simp [hsuf, List.isSuffixOf_iff_suffix.mp hsuf]

/-- Counterexample to C1's companion claim C2 as literally stated: with
default domains `b.a.com` and `a.com`, shoot `x` in project `b`, the specified
domain `x.b.a.com` is exactly `<shoot-name>.<project-name>.<d>` for the
default domain `d = a.com` (of which it is a dot-suffix subdomain), yet the
plugin rejects the request, because the domain is first matched against the
default domain `b.a.com` whose scheme it does not satisfy. -/
theorem claim_C2_counterexample :
    ("x.b.a.com".toList = domainScheme "x".toList "b".toList "a.com".toList)
    ∧ List.isSuffixOf ('.' :: "a.com".toList) "x.b.a.com".toList = true
    ∧ assignDefaultDomainIfNeeded
        ⟨"x".toList, "garden-b".toList, some "seed1".toList,
          some ⟨some "x.b.a.com".toList, []⟩⟩
        ⟨"b".toList⟩ ["b.a.com".toList, "a.com".toList]
        = .error .domainSchemeMismatch :=
  ⟨rfl, rfl, rfl⟩

/-- Witness for C2 at concrete inputs: a shoot with domain `x.p.example.com`
in project `p` is accepted unchanged against default domain `example.com`,
and the same shoot is rejected when its domain does not match the scheme. -/
theorem claim_C2_witness :
    assignDefaultDomainIfNeeded
        ⟨"x".toList, "garden-p".toList, some "seed1".toList,
          some ⟨some "x.p.example.com".toList, []⟩⟩
        ⟨"p".toList⟩ ["example.com".toList]
      = .ok ⟨"x".toList, "garden-p".toList, some "seed1".toList,
          some ⟨some "x.p.example.com".toList, []⟩⟩
    ∧ assignDefaultDomainIfNeeded
        ⟨"y".toList, "garden-p".toList, some "seed1".toList,
          some ⟨some "x.p.example.com".toList, []⟩⟩
        ⟨"p".toList⟩ ["example.com".toList]
      = .error .domainSchemeMismatch :=
  ⟨(claim_C2 ⟨"x".toList, "garden-p".toList, some "seed1".toList,
      some ⟨some "x.p.example.com".toList, []⟩⟩ ⟨"p".toList⟩).2.2
      [] "example.com".toList [] "x.p.example.com".toList rfl (by simp) (by decide) (by decide),
   (claim_C2 ⟨"y".toList, "garden-p".toList, some "seed1".toList,
      some ⟨some "x.p.example.com".toList, []⟩⟩ ⟨"p".toList⟩).2.1
      [] "example.com".toList [] "x.p.example.com".toList rfl (by simp) (by decide) (by decide)⟩

/-- A failed condition always carries the reason that was passed in. -/
theorem FailedCondition_reason (thresholds : List (String × Int)) (now : Int)
    (c : Condition) (reason message : String) :
    (FailedCondition thresholds now c reason message).reason = reason := by
  unfold FailedCondition updatedCondition
  cases c.status <;> cases thresholds.lookup c.ctype <;>
    simp [apply_ite Condition.reason]

/-- Without a configured threshold for the condition's type, a failed
condition always has status False. -/
theorem FailedCondition_status_of_no_threshold (thresholds : List (String × Int)) (now : Int)
    (c : Condition) (reason message : String)
    (h : thresholds.lookup c.ctype = none) :
    (FailedCondition thresholds now c reason message).status = .statusFalse := by
  unfold FailedCondition updatedCondition
  cases c.status <;> simp [h]

/-- C3: with a threshold configured for the condition's type, FailedCondition
maps a True condition to Progressing, keeps a Progressing condition
Progressing while `now - lastTransitionTime` is within the threshold and turns
it False once outside it; without a configured threshold it always yields
status False. -/
theorem claim_C3 (thresholds : List (String × Int)) (now : Int) (c : Condition)
    (reason message : String) :
    (∀ t, thresholds.lookup c.ctype = some t →
      (c.status = .statusTrue →
        (FailedCondition thresholds now c reason message).status = .statusProgressing)
      ∧ (c.status = .statusProgressing → now - c.lastTransitionTime ≤ t →
          (FailedCondition thresholds now c reason message).status = .statusProgressing)
      ∧ (c.status = .statusProgressing → now - c.lastTransitionTime > t →
          (FailedCondition thresholds now c reason message).status = .statusFalse))
    ∧ (thresholds.lookup c.ctype = none →
        (FailedCondition thresholds now c reason message).status = .statusFalse) := by
  refine ⟨fun t ht => ⟨fun hs => ?_, fun hs hin => ?_, fun hs hout => ?_⟩,
    fun h => FailedCondition_status_of_no_threshold thresholds now c reason message h⟩
  · unfold FailedCondition updatedCondition
    rw [hs, ht]
  · unfold FailedCondition updatedCondition
    rw [hs, ht]
    simp [hin]
  · unfold FailedCondition updatedCondition
    rw [hs, ht]
    simp [not_le.mpr hout]

/-- Witness for C3 at concrete inputs: with a one-minute threshold on type
`ControlPlaneHealthy`, a True condition becomes Progressing, a Progressing
condition within the threshold stays Progressing, one outside it becomes
False, and without any threshold a True condition becomes False. -/
theorem claim_C3_witness :
    (FailedCondition [("ControlPlaneHealthy", 60)] 0
      ⟨"ControlPlaneHealthy", .statusTrue, 0, "", ""⟩ "r" "m").status = .statusProgressing
    ∧ (FailedCondition [("ControlPlaneHealthy", 60)] 30
      ⟨"ControlPlaneHealthy", .statusProgressing, 0, "", ""⟩ "r" "m").status
        = .statusProgressing
    ∧ (FailedCondition [("ControlPlaneHealthy", 60)] 61
      ⟨"ControlPlaneHealthy", .statusProgressing, 0, "", ""⟩ "r" "m").status = .statusFalse
    ∧ (FailedCondition [] 0
      ⟨"ControlPlaneHealthy", .statusTrue, 0, "", ""⟩ "r" "m").status = .statusFalse :=
  ⟨((claim_C3 [("ControlPlaneHealthy", 60)] 0
      ⟨"ControlPlaneHealthy", .statusTrue, 0, "", ""⟩ "r" "m").1 60 (by decide)).1 rfl,
   ((claim_C3 [("ControlPlaneHealthy", 60)] 30
      ⟨"ControlPlaneHealthy", .statusProgressing, 0, "", ""⟩ "r" "m").1 60
        (by decide)).2.1 rfl (by decide),
   ((claim_C3 [("ControlPlaneHealthy", 60)] 61
      ⟨"ControlPlaneHealthy", .statusProgressing, 0, "", ""⟩ "r" "m").1 60
        (by decide)).2.2 rfl (by decide),
   (claim_C3 [] 0 ⟨"ControlPlaneHealthy", .statusTrue, 0, "", ""⟩ "r" "m").2 rfl⟩

/-- The per-pool node scan reports nothing when every node of the list is
ready. -/
theorem checkNodes_eq_none (th : List (String × Int)) (now : Int) (c : Condition)
    (nodeList : List NodeInfo) (pool : String)
    (h : ∀ n ∈ nodeList, n.ready = true) :
    checkNodes th now c nodeList pool = none := by
  unfold checkNodes
  have hf : nodeList.find? (fun n => !n.ready) = none := by
    rw [List.find?_eq_none]
    intro n hn
    simp [h n hn]
  rw [hf]

/-- The per-pool node scan reports a `NodeUnhealthy` condition when some node
of the list is not ready. -/
theorem checkNodes_unhealthy (th : List (String × Int)) (now : Int) (c : Condition)
    (nodeList : List NodeInfo) (pool : String)
    (h : ∃ n ∈ nodeList, n.ready = false) :
    ∃ cond, checkNodes th now c nodeList pool = some cond
      ∧ cond.reason = "NodeUnhealthy" := by
  unfold checkNodes
  have hsome : (nodeList.find? (fun n => !n.ready)).isSome := by
    rw [List.find?_isSome]
    obtain ⟨n, hn, hr⟩ := h
    exact ⟨n, hn, by simp [hr]⟩
  obtain ⟨n, hfind⟩ := Option.isSome_iff_exists.mp hsome
  rw [hfind]
  exact ⟨_, rfl, FailedCondition_reason th now c "NodeUnhealthy" _⟩

/-- A reported per-pool condition has status False when no threshold is
configured for the condition's type. -/
theorem checkNodes_status (th : List (String × Int)) (now : Int) (c : Condition)
    (nodeList : List NodeInfo) (pool : String) (c' : Condition)
    (hthr : th.lookup c.ctype = none)
    (h : checkNodes th now c nodeList pool = some c') : c'.status = .statusFalse := by
  unfold checkNodes at h
  cases hf : nodeList.find? (fun n => !n.ready) with
  | none => rw [hf] at h; cases h
  | some n =>
    rw [hf] at h
    rw [← Option.some.inj h]
    exact FailedCondition_status_of_no_threshold th now c "NodeUnhealthy" _ hthr

/-- The node health aggregation is silent when every node is ready and every
pool's registered-node count lies between its bounds. -/
theorem checkClusterNodes_none (th : List (String × Int)) (now : Int) (c : Condition)
    (workers : List WorkerPool) (nodes : List NodeInfo)
    (hready : ∀ n ∈ nodes, n.ready = true)
    (hcount : ∀ w ∈ workers, w.minimum ≤ poolCount nodes w ∧ poolCount nodes w ≤ w.maximum) :
    CheckClusterNodes th now workers c nodes = none := by
  induction workers with
  | nil => rfl
  | cons w rest ih =>
    have hmem := hcount w (by simp)
    simp only [poolCount] at hmem
    have hnodes : checkNodes th now c (nodes.filter fun n => n.pool = w.name) w.name = none :=
      checkNodes_eq_none th now c _ w.name (fun n hn => hready n (List.mem_of_mem_filter hn))
    simp only [CheckClusterNodes, hnodes]
    rw [if_neg (not_lt.mpr hmem.1), if_neg (not_lt.mpr hmem.2)]
    exact ih (fun w' hw' => hcount w' (by simp [hw']))

/-- Every condition reported by the node health aggregation has status False
when no threshold is configured for the condition's type. -/
theorem checkClusterNodes_status (th : List (String × Int)) (now : Int) (c : Condition)
    (workers : List WorkerPool) (nodes : List NodeInfo)
    (hthr : th.lookup c.ctype = none) :
    ∀ c', CheckClusterNodes th now workers c nodes = some c' →
      c'.status = .statusFalse := by
  induction workers with
  | nil => intro c' h; cases h
  | cons w rest ih =>
    intro c' h
    simp only [CheckClusterNodes] at h
    cases hcn : checkNodes th now c (nodes.filter fun n => n.pool = w.name) w.name with
    | some e =>
      simp only [hcn] at h
      rw [← Option.some.inj h]
      exact checkNodes_status th now c _ w.name e hthr hcn
    | none =>
      simp only [hcn] at h
      split at h
      · rw [← Option.some.inj h]
        exact FailedCondition_status_of_no_threshold th now c "MissingNodes" _ hthr
      · split at h
        · rw [← Option.some.inj h]
          exact FailedCondition_status_of_no_threshold th now c "TooManyNodes" _ hthr
        · exact ih c' h

/-- With all pool counts in range, an unready node in some pool makes the node
health aggregation report a `NodeUnhealthy` condition. -/
theorem checkClusterNodes_unhealthy (th : List (String × Int)) (now : Int) (c : Condition)
    (workers : List WorkerPool) (nodes : List NodeInfo)
    (hcount : ∀ w ∈ workers, w.minimum ≤ poolCount nodes w ∧ poolCount nodes w ≤ w.maximum)
    (hex : ∃ w ∈ workers, ∃ n ∈ nodes, n.pool = w.name ∧ n.ready = false) :
    ∃ c', CheckClusterNodes th now workers c nodes = some c'
      ∧ c'.reason = "NodeUnhealthy" := by
  induction workers with
  | nil => simp at hex
  | cons w rest ih =>
    by_cases hw : ∃ n ∈ nodes, n.pool = w.name ∧ n.ready = false
    · obtain ⟨n, hn, hpool, hnr⟩ := hw
      have hfil : ∃ n' ∈ nodes.filter (fun n => n.pool = w.name), n'.ready = false :=
        ⟨n, List.mem_filter.mpr ⟨hn, by simp [hpool]⟩, hnr⟩
      obtain ⟨cond, hcond, hreason⟩ := checkNodes_unhealthy th now c _ w.name hfil
      refine ⟨cond, ?_, hreason⟩
      simp only [CheckClusterNodes, hcond]
    · have hex' : ∃ w' ∈ rest, ∃ n ∈ nodes, n.pool = w'.name ∧ n.ready = false := by
        obtain ⟨w', hw', hn⟩ := hex
        rcases List.mem_cons.mp hw' with rfl | hmem
        · exact absurd hn hw
        · exact ⟨w', hmem, hn⟩
      have hnone : checkNodes th now c (nodes.filter fun n => n.pool = w.name) w.name = none := by
        apply checkNodes_eq_none
        intro n hn
        by_contra hc
        have hmf := List.mem_filter.mp hn
        exact hw ⟨n, hmf.1, by simpa using hmf.2, by simpa using hc⟩
      have hmem := hcount w (by simp)
      simp only [poolCount] at hmem
      obtain ⟨cond, hcond, hreason⟩ := ih (fun w' h' => hcount w' (by simp [h'])) hex'
      refine ⟨cond, ?_, hreason⟩
      simp only [CheckClusterNodes, hnone]
      rw [if_neg (not_lt.mpr hmem.1), if_neg (not_lt.mpr hmem.2)]
      exact hcond

/-- With all nodes ready and no pool above its maximum, a pool below its
minimum makes the node health aggregation report a `MissingNodes`
condition. -/
theorem checkClusterNodes_missing (th : List (String × Int)) (now : Int) (c : Condition)
    (workers : List WorkerPool) (nodes : List NodeInfo)
    (hready : ∀ n ∈ nodes, n.ready = true)
    (hmax : ∀ w ∈ workers, poolCount nodes w ≤ w.maximum)
    (hex : ∃ w ∈ workers, poolCount nodes w < w.minimum) :
    ∃ c', CheckClusterNodes th now workers c nodes = some c'
      ∧ c'.reason = "MissingNodes" := by
  induction workers with
  | nil => simp at hex
  | cons w rest ih =>
    have hnone : checkNodes th now c (nodes.filter fun n => n.pool = w.name) w.name = none :=
      checkNodes_eq_none th now c _ w.name (fun n hn => hready n (List.mem_of_mem_filter hn))
    by_cases hw : poolCount nodes w < w.minimum
    · simp only [poolCount] at hw
      refine ⟨FailedCondition th now c "MissingNodes"
          ("not enough worker nodes registered in worker pool " ++ w.name), ?_,
        FailedCondition_reason th now c "MissingNodes" _⟩
      simp only [CheckClusterNodes, hnone]
      rw [if_pos hw]
    · have hex' : ∃ w' ∈ rest, poolCount nodes w' < w'.minimum := by
        obtain ⟨w', hw', hlt⟩ := hex
        rcases List.mem_cons.mp hw' with rfl | hmem
        · exact absurd hlt hw
        · exact ⟨w', hmem, hlt⟩
      obtain ⟨cond, hcond, hreason⟩ := ih (fun w' h' => hmax w' (by simp [h'])) hex'
      refine ⟨cond, ?_, hreason⟩
      simp only [CheckClusterNodes, hnone]
      have hm := hmax w (by simp)
      simp only [poolCount] at hm hw
      rw [if_neg hw, if_neg (not_lt.mpr hm)]
      exact hcond

/-- With all nodes ready and no pool below its minimum, a pool above its
maximum makes the node health aggregation report a `TooManyNodes`
condition. -/
theorem checkClusterNodes_tooMany (th : List (String × Int)) (now : Int) (c : Condition)
    (workers : List WorkerPool) (nodes : List NodeInfo)
    (hready : ∀ n ∈ nodes, n.ready = true)
    (hmin : ∀ w ∈ workers, w.minimum ≤ poolCount nodes w)
    (hex : ∃ w ∈ workers, w.maximum < poolCount nodes w) :
    ∃ c', CheckClusterNodes th now workers c nodes = some c'
      ∧ c'.reason = "TooManyNodes" := by
  induction workers with
  | nil => simp at hex
  | cons w rest ih =>
    have hnone : checkNodes th now c (nodes.filter fun n => n.pool = w.name) w.name = none :=
      checkNodes_eq_none th now c _ w.name (fun n hn => hready n (List.mem_of_mem_filter hn))
    have hm := hmin w (by simp)
    simp only [poolCount] at hm
    by_cases hw : w.maximum < poolCount nodes w
    · simp only [poolCount] at hw
      refine ⟨FailedCondition th now c "TooManyNodes"
          ("too many worker nodes registered in worker pool " ++ w.name), ?_,
        FailedCondition_reason th now c "TooManyNodes" _⟩
      simp only [CheckClusterNodes, hnone]
      rw [if_neg (not_lt.mpr hm), if_pos hw]
    · have hex' : ∃ w' ∈ rest, w'.maximum < poolCount nodes w' := by
        obtain ⟨w', hw', hlt⟩ := hex
        rcases List.mem_cons.mp hw' with rfl | hmem
        · exact absurd hlt hw
        · exact ⟨w', hmem, hlt⟩
      obtain ⟨cond, hcond, hreason⟩ := ih (fun w' h' => hmin w' (by simp [h'])) hex'
      refine ⟨cond, ?_, hreason⟩
      simp only [CheckClusterNodes, hnone]
      simp only [poolCount] at hw
      rw [if_neg (not_lt.mpr hm), if_neg hw]
      exact hcond

/-- C4: the node health aggregation returns nil when every node is ready and
every worker pool's registered-node count lies between the pool's minimum and
maximum; any condition it reports has status False (no threshold configured
for the condition type); an unready node in a pool yields reason
`NodeUnhealthy`, a pool under its minimum yields reason `MissingNodes`, and a
pool over its maximum yields reason `TooManyNodes` (each failure kind taken in
isolation, as the checker reports the first failure it encounters). -/
theorem claim_C4 (thresholds : List (String × Int)) (now : Int) (workers : List WorkerPool)
    (c : Condition) (nodes : List NodeInfo)
    (hthr : thresholds.lookup c.ctype = none) :
    ((∀ n ∈ nodes, n.ready = true) →
      (∀ w ∈ workers, w.minimum ≤ poolCount nodes w ∧ poolCount nodes w ≤ w.maximum) →
      CheckClusterNodes thresholds now workers c nodes = none)
    ∧ (∀ c', CheckClusterNodes thresholds now workers c nodes = some c' →
        c'.status = .statusFalse)
    ∧ ((∀ w ∈ workers, w.minimum ≤ poolCount nodes w ∧ poolCount nodes w ≤ w.maximum) →
      (∃ w ∈ workers, ∃ n ∈ nodes, n.pool = w.name ∧ n.ready = false) →
      ∃ c', CheckClusterNodes thresholds now workers c nodes = some c'
        ∧ c'.reason = "NodeUnhealthy")
    ∧ ((∀ n ∈ nodes, n.ready = true) →
      (∀ w ∈ workers, poolCount nodes w ≤ w.maximum) →
      (∃ w ∈ workers, poolCount nodes w < w.minimum) →
      ∃ c', CheckClusterNodes thresholds now workers c nodes = some c'
        ∧ c'.reason = "MissingNodes")
    ∧ ((∀ n ∈ nodes, n.ready = true) →
      (∀ w ∈ workers, w.minimum ≤ poolCount nodes w) →
      (∃ w ∈ workers, w.maximum < poolCount nodes w) →
      ∃ c', CheckClusterNodes thresholds now workers c nodes = some c'
        ∧ c'.reason = "TooManyNodes") :=
  ⟨fun hready hcount => checkClusterNodes_none thresholds now c workers nodes hready hcount,
   checkClusterNodes_status thresholds now c workers nodes hthr,
   fun hcount hex => checkClusterNodes_unhealthy thresholds now c workers nodes hcount hex,
   fun hready hmax hex => checkClusterNodes_missing thresholds now c workers nodes hready hmax hex,
   fun hready hmin hex => checkClusterNodes_tooMany thresholds now c workers nodes hready hmin hex⟩

/-- Witness for C4 at concrete inputs: one healthy pool passes, an unready
node produces a False `NodeUnhealthy` condition, and an empty pool with
minimum 1 produces a False `MissingNodes` condition. -/
theorem claim_C4_witness :
    CheckClusterNodes [] 0 [⟨"cpu-worker-1", 1, 10⟩] ⟨"t", .statusUnknown, 0, "", ""⟩
      [⟨"node1", "cpu-worker-1", true⟩] = none
    ∧ (∃ c', CheckClusterNodes [] 0 [⟨"cpu-worker-1", 1, 10⟩] ⟨"t", .statusUnknown, 0, "", ""⟩
        [⟨"node1", "cpu-worker-1", false⟩] = some c' ∧ c'.reason = "NodeUnhealthy")
    ∧ (∃ c', CheckClusterNodes [] 0 [⟨"cpu-worker-2", 1, 2⟩] ⟨"t", .statusUnknown, 0, "", ""⟩
        [] = some c' ∧ c'.reason = "MissingNodes") :=
  ⟨(claim_C4 [] 0 [⟨"cpu-worker-1", 1, 10⟩] ⟨"t", .statusUnknown, 0, "", ""⟩
      [⟨"node1", "cpu-worker-1", true⟩] rfl).1 (by decide) (by decide),
   (claim_C4 [] 0 [⟨"cpu-worker-1", 1, 10⟩] ⟨"t", .statusUnknown, 0, "", ""⟩
      [⟨"node1", "cpu-worker-1", false⟩] rfl).2.2.1 (by decide) (by decide),
   (claim_C4 [] 0 [⟨"cpu-worker-2", 1, 2⟩] ⟨"t", .statusUnknown, 0, "", ""⟩
      [] rfl).2.2.2.1 (by decide) (by decide) (by decide)⟩

/-- The boolean zone-availability scan decides exactly the specification
predicate `MachineTypeUnavailable`. -/
theorem unavailable_iff (regions : List ProfileRegion) (region : Str) (zones : List Str)
    (machineType : Str) :
    unavailableInAtLeastOneZone regions region zones machineType = true ↔
      MachineTypeUnavailable regions region zones machineType := by
  unfold unavailableInAtLeastOneZone MachineTypeUnavailable
  simp [List.any_eq_true, List.elem_iff]

/-- The constraint loop of `validateMachineTypes` accepts exactly when the
type is available in all zones and some usable constraint carries its name. -/
theorem machineTypeLoop_fst (machineType : Str) (unavail : Bool) (acc : List Str)
    (constraints : List MachineType) :
    (machineTypeLoop machineType unavail acc constraints).1 = true ↔
      unavail = false ∧ ∃ t ∈ constraints, t.usable ≠ some false ∧ t.name = machineType := by
  induction constraints generalizing acc with
  | nil => simp [machineTypeLoop]
  | cons t rest ih =>
    simp only [machineTypeLoop]
    by_cases hu : t.usable = some false
    · rw [if_pos hu, ih]
      simp [List.exists_mem_cons_iff, hu]
    · rw [if_neg hu]
      by_cases hb : unavail = true
      · rw [if_pos hb, ih]
        simp [hb]
      · have hbf : unavail = false := by
          cases unavail
          · rfl
          · exact absurd rfl hb
        rw [if_neg hb]
        by_cases hn : t.name = machineType
        · rw [if_pos hn]
          exact iff_of_true rfl ⟨hbf, t, by simp, hu, hn⟩
        · rw [if_neg hn, ih]
          simp [List.exists_mem_cons_iff, hn]

/-- C5: `validateMachineTypes` accepts unconditionally when the machine type
equals the old worker's machine type; for a changed type it accepts exactly
when the type is not listed among the UnavailableMachineTypes of any of the
worker's zones in the shoot's region and some machine-type constraint of the
cloud profile that is not marked unusable carries its name. -/
theorem claim_C5 (constraints : List MachineType) (machineType oldMachineType : Str)
    (regions : List ProfileRegion) (region : Str) (zones : List Str) :
    (machineType = oldMachineType →
      (validateMachineTypes constraints machineType oldMachineType regions region zones).1
        = true)
    ∧ (machineType ≠ oldMachineType →
      ((validateMachineTypes constraints machineType oldMachineType regions region zones).1
          = true ↔
        ¬ MachineTypeUnavailable regions region zones machineType
        ∧ ∃ t ∈ constraints, t.usable ≠ some false ∧ t.name = machineType)) := by
  constructor
  · intro h
    unfold validateMachineTypes
    rw [if_pos h]
  · intro h
    unfold validateMachineTypes
    rw [if_neg h, machineTypeLoop_fst]
    constructor
    · rintro ⟨h1, h2⟩
      refine ⟨fun hm => ?_, h2⟩
      rw [(unavailable_iff regions region zones machineType).mpr hm] at h1
      cases h1
    · rintro ⟨h1, h2⟩
      refine ⟨?_, h2⟩
      cases hb : unavailableInAtLeastOneZone regions region zones machineType with
      | false => rfl
      | true => exact absurd ((unavailable_iff regions region zones machineType).mp hb) h1

/-- Witness for C5 at concrete inputs: an unchanged type is accepted, a
changed type present and usable in the profile and unavailable in no zone is
accepted, and a type unavailable in one of the worker's zones is rejected. -/
theorem claim_C5_witness :
    (validateMachineTypes [⟨"m1".toList, none⟩] "m0".toList "m0".toList
        [] "eu".toList ["eu-a".toList]).1 = true
    ∧ (validateMachineTypes [⟨"m1".toList, none⟩] "m1".toList "m0".toList
        [⟨"eu".toList, [⟨"eu-a".toList, [], []⟩]⟩] "eu".toList ["eu-a".toList]).1 = true
    ∧ (validateMachineTypes [⟨"m1".toList, none⟩] "m1".toList "m0".toList
        [⟨"eu".toList, [⟨"eu-a".toList, ["m1".toList], []⟩]⟩]
        "eu".toList ["eu-a".toList]).1 ≠ true :=
  ⟨(claim_C5 [⟨"m1".toList, none⟩] "m0".toList "m0".toList
      [] "eu".toList ["eu-a".toList]).1 rfl,
   ((claim_C5 [⟨"m1".toList, none⟩] "m1".toList "m0".toList
      [⟨"eu".toList, [⟨"eu-a".toList, [], []⟩]⟩] "eu".toList ["eu-a".toList]).2
      (by decide)).mpr (by decide),
   fun hacc =>
     by exact absurd (((claim_C5 [⟨"m1".toList, none⟩] "m1".toList "m0".toList
        [⟨"eu".toList, [⟨"eu-a".toList, ["m1".toList], []⟩]⟩]
        "eu".toList ["eu-a".toList]).2 (by decide)).mp hacc).1 (by decide)⟩

/-- `PresetLE` is reflexive. -/
theorem presetLE_refl (p : OIDCPreset) : PresetLE p p :=
  Or.inr ⟨rfl, le_rfl⟩

/-- `PresetLE` is transitive. -/
theorem presetLE_trans {p q r : OIDCPreset} (h1 : PresetLE p q) (h2 : PresetLE q r) :
    PresetLE p r := by
  rcases h1 with h1 | ⟨h1w, h1n⟩
  · rcases h2 with h2 | ⟨h2w, h2n⟩
    · exact Or.inl (h1.trans h2)
    · exact Or.inl (lt_of_lt_of_le h1 h2w.le)
  · rcases h2 with h2 | ⟨h2w, h2n⟩
    · exact Or.inl (lt_of_le_of_lt h1w.le h2)
    · exact Or.inr ⟨h1w.trans h2w, h1n.trans h2n⟩

/-- Unfolding equation of `filterLoop` for a non-empty accumulator. -/
theorem filterLoop_cons_some (shoot : OIDCShoot) (o m : OIDCPreset) (rest : List OIDCPreset) :
    filterLoop shoot (some m) (o :: rest) =
      if !selectorMatches o.spec.shootSelector shoot.labels then
        filterLoop shoot (some m) rest
      else if o.spec.weight ≥ m.spec.weight then
        if o.spec.weight > m.spec.weight then filterLoop shoot (some o) rest
        else if m.name < o.name then filterLoop shoot (some o) rest
        else filterLoop shoot (some m) rest
      else filterLoop shoot (some m) rest := rfl

/-- Unfolding equation of `filterLoop` for the empty accumulator. -/
theorem filterLoop_cons_none (shoot : OIDCShoot) (o : OIDCPreset) (rest : List OIDCPreset) :
    filterLoop shoot none (o :: rest) =
      if !selectorMatches o.spec.shootSelector shoot.labels then
        filterLoop shoot none rest
      else filterLoop shoot (some o) rest := rfl

/-- Loop invariant of `filterOIDCs`: starting from a matching candidate, the
loop returns a matching preset that dominates the candidate and every matching
preset of the remaining list in the (weight, name) order. -/
theorem filterLoop_spec (shoot : OIDCShoot) (l : List OIDCPreset) (m : OIDCPreset)
    (hm : PresetMatches m shoot) :
    ∃ r, filterLoop shoot (some m) l = some r
      ∧ PresetLE m r
      ∧ (r = m ∨ (r ∈ l ∧ PresetMatches r shoot))
      ∧ ∀ q ∈ l, PresetMatches q shoot → PresetLE q r := by
  induction l generalizing m with
  | nil => exact ⟨m, rfl, presetLE_refl m, Or.inl rfl, by simp⟩
  | cons o rest ih =>
    rw [filterLoop_cons_some]
    cases ho : selectorMatches o.spec.shootSelector shoot.labels with
    | false =>
      rw [if_pos (by rfl)]
      obtain ⟨r, hr, hle, hloc, hall⟩ := ih m hm
      refine ⟨r, hr, hle, ?_, ?_⟩
      · rcases hloc with rfl | ⟨hmem, hma⟩
        · exact Or.inl rfl
        · exact Or.inr ⟨List.mem_cons_of_mem _ hmem, hma⟩
      · intro q hq hmq
        rcases List.mem_cons.mp hq with rfl | hq'
        · exact absurd hmq (by simp [PresetMatches, ho])
        · exact hall q hq' hmq
    | true =>
      rw [if_neg (by simp)]
      by_cases h1 : o.spec.weight ≥ m.spec.weight
      · by_cases h2 : o.spec.weight > m.spec.weight
        · rw [if_pos h1, if_pos h2]
          obtain ⟨r, hr, hle, hloc, hall⟩ := ih o ho
          refine ⟨r, hr, presetLE_trans (Or.inl h2) hle, ?_, ?_⟩
          · rcases hloc with rfl | ⟨hmem, hma⟩
            · exact Or.inr ⟨List.mem_cons_self _ _, ho⟩
            · exact Or.inr ⟨List.mem_cons_of_mem _ hmem, hma⟩
          · intro q hq hmq
            rcases List.mem_cons.mp hq with rfl | hq'
            · exact hle
            · exact hall q hq' hmq
        · have heq : o.spec.weight = m.spec.weight := le_antisymm (not_lt.mp h2) h1
          by_cases h3 : m.name < o.name
          · rw [if_pos h1, if_neg h2, if_pos h3]
            obtain ⟨r, hr, hle, hloc, hall⟩ := ih o ho
            refine ⟨r, hr, presetLE_trans (Or.inr ⟨heq.symm, h3.le⟩) hle, ?_, ?_⟩
            · rcases hloc with rfl | ⟨hmem, hma⟩
              · exact Or.inr ⟨List.mem_cons_self _ _, ho⟩
              · exact Or.inr ⟨List.mem_cons_of_mem _ hmem, hma⟩
            · intro q hq hmq
              rcases List.mem_cons.mp hq with rfl | hq'
              · exact hle
              · exact hall q hq' hmq
          · rw [if_pos h1, if_neg h2, if_neg h3]
            obtain ⟨r, hr, hle, hloc, hall⟩ := ih m hm
            refine ⟨r, hr, hle, ?_, ?_⟩
            · rcases hloc with rfl | ⟨hmem, hma⟩
              · exact Or.inl rfl
              · exact Or.inr ⟨List.mem_cons_of_mem _ hmem, hma⟩
            · intro q hq hmq
              rcases List.mem_cons.mp hq with rfl | hq'
              · exact presetLE_trans (Or.inr ⟨heq, not_lt.mp h3⟩) hle
              · exact hall q hq' hmq
      · rw [if_neg h1]
        obtain ⟨r, hr, hle, hloc, hall⟩ := ih m hm
        refine ⟨r, hr, hle, ?_, ?_⟩
        · rcases hloc with rfl | ⟨hmem, hma⟩
          · exact Or.inl rfl
          · exact Or.inr ⟨List.mem_cons_of_mem _ hmem, hma⟩
        · intro q hq hmq
          rcases List.mem_cons.mp hq with rfl | hq'
          · exact presetLE_trans (Or.inl (not_le.mp h1)) hle
          · exact hall q hq' hmq

/-- `filterOIDCs`' loop either matches nothing or yields a matching preset
that dominates every matching preset of the list. -/
theorem filterLoop_none_cases (shoot : OIDCShoot) (l : List OIDCPreset) :
    (filterLoop shoot none l = none ∧ ∀ q ∈ l, ¬ PresetMatches q shoot)
    ∨ ∃ r, filterLoop shoot none l = some r ∧ r ∈ l ∧ PresetMatches r shoot
        ∧ ∀ q ∈ l, PresetMatches q shoot → PresetLE q r := by
  induction l with
  | nil => exact Or.inl ⟨rfl, by simp⟩
  | cons o rest ih =>
    rw [filterLoop_cons_none]
    cases ho : selectorMatches o.spec.shootSelector shoot.labels with
    | false =>
      rw [if_pos (by rfl)]
      rcases ih with ⟨h1, h2⟩ | ⟨r, hr, hmem, hma, hall⟩
      · refine Or.inl ⟨h1, ?_⟩
        rw [List.forall_mem_cons]
        exact ⟨by simp [PresetMatches, ho], h2⟩
      · refine Or.inr ⟨r, hr, List.mem_cons_of_mem _ hmem, hma, ?_⟩
        intro q hq hmq
        rcases List.mem_cons.mp hq with rfl | hq'
        · exact absurd hmq (by simp [PresetMatches, ho])
        · exact hall q hq' hmq
    | true =>
      rw [if_neg (by simp)]
      obtain ⟨r, hr, hle, hloc, hall⟩ := filterLoop_spec shoot rest o ho
      refine Or.inr ⟨r, hr, ?_, ?_, ?_⟩
      · rcases hloc with rfl | ⟨hmem, _⟩
        · exact List.mem_cons_self _ _
        · exact List.mem_cons_of_mem _ hmem
      · rcases hloc with rfl | ⟨_, hma⟩
        · exact ho
        · exact hma
      · intro q hq hmq
        rcases List.mem_cons.mp hq with rfl | hq'
        · exact hle
        · exact hall q hq' hmq

/-- C6: the OpenIDConnectPreset admission ignores non-CREATE operations and
subresource requests, leaves shoots that already specify an OIDC configuration
or match no preset unchanged, and otherwise applies the configuration of a
matching preset that dominates all matching presets — greatest weight, ties
broken towards the lexicographically greater name. -/
theorem claim_C6 (op : Operation) (subresource : String) (oidcs : List OIDCPreset)
    (shoot : OIDCShoot) :
    ((op ≠ .create ∨ subresource ≠ "") → oidcAdmit op subresource oidcs shoot = shoot)
    ∧ (shoot.oidcConfig.isSome → oidcAdmit op subresource oidcs shoot = shoot)
    ∧ ((∀ q ∈ oidcs, ¬ PresetMatches q shoot) → oidcAdmit op subresource oidcs shoot = shoot)
    ∧ (op = .create → subresource = "" → shoot.oidcConfig = none →
        ∀ p ∈ oidcs, PresetMatches p shoot →
        ∃ best ∈ oidcs, PresetMatches best shoot
          ∧ (∀ q ∈ oidcs, PresetMatches q shoot → PresetLE q best)
          ∧ oidcAdmit op subresource oidcs shoot = ApplyOIDCConfiguration shoot best.spec) := by
  refine ⟨fun h => ?_, fun h => ?_, fun h => ?_, fun hop hsub hcfg p hp hmp => ?_⟩
  · unfold oidcAdmit
    rw [if_pos h.symm]
  · unfold oidcAdmit
    by_cases hg : subresource ≠ "" ∨ op ≠ .create
    · rw [if_pos hg]
    · rw [if_neg hg, if_pos h]
  · unfold oidcAdmit
    by_cases hg : subresource ≠ "" ∨ op ≠ .create
    · rw [if_pos hg]
    · rw [if_neg hg]
      by_cases hc : shoot.oidcConfig.isSome
      · rw [if_pos hc]
      · rw [if_neg hc]
        have hfo : filterOIDCs oidcs shoot = none := by
          rcases filterLoop_none_cases shoot oidcs with ⟨h1, _⟩ | ⟨r, _, hmem, hma, _⟩
          · unfold filterOIDCs
            rw [h1]
            rfl
          · exact absurd hma (h r hmem)
        rw [hfo]
  · rcases filterLoop_none_cases shoot oidcs with ⟨_, hnone⟩ | ⟨r, hr, hmem, hma, hall⟩
    · exact absurd hmp (hnone p hp)
    · have hfo : filterOIDCs oidcs shoot = some r.spec := by
        unfold filterOIDCs
        rw [hr]
        rfl
      refine ⟨r, hmem, hma, hall, ?_⟩
      unfold oidcAdmit
      rw [if_neg (by simp [hop, hsub]), if_neg (by simp [hcfg]), hfo]

/-- Witness for C6 at concrete inputs: between two matching presets of weights
1 and 2, the plugin applies the weight-2 preset's configuration on CREATE. -/
theorem claim_C6_witness :
    ∃ best ∈ ([⟨"p1", ⟨[], 1, "cfgA"⟩⟩, ⟨"p2", ⟨[], 2, "cfgB"⟩⟩] : List OIDCPreset),
      PresetMatches best ⟨[], none⟩
      ∧ (∀ q ∈ ([⟨"p1", ⟨[], 1, "cfgA"⟩⟩, ⟨"p2", ⟨[], 2, "cfgB"⟩⟩] : List OIDCPreset),
          PresetMatches q ⟨[], none⟩ → PresetLE q best)
      ∧ oidcAdmit .create "" [⟨"p1", ⟨[], 1, "cfgA"⟩⟩, ⟨"p2", ⟨[], 2, "cfgB"⟩⟩] ⟨[], none⟩
          = ApplyOIDCConfiguration ⟨[], none⟩ best.spec :=
  (claim_C6 .create "" [⟨"p1", ⟨[], 1, "cfgA"⟩⟩, ⟨"p2", ⟨[], 2, "cfgB"⟩⟩] ⟨[], none⟩).2.2.2
    rfl rfl rfl ⟨"p1", ⟨[], 1, "cfgA"⟩⟩ (by simp) (by decide)

/-- After a successful namespace reconciliation with unset `.spec.namespace`
and a successful spec update, the reconcile continues with the namespace name
recorded. -/
theorem projectReconcile_after_none (env : ReconcileEnv) (p0 : ProjectState) (ns : String)
    (hpend : env.updateStatusPending = none)
    (hns : env.reconcileNamespace = .ok ns)
    (hsn : p0.specNamespace = none)
    (hupd : env.updateSpecNamespace = none) :
    projectReconcile env p0 = reconcileAfterNamespace env p0.generation
      { (if p0.phase = .noPhase then { p0 with phase := .pending } else p0) with
        specNamespace := some ns } := by
  unfold projectReconcile
  by_cases hp : p0.phase = .noPhase <;> simp [hp, hpend, hns, hsn, hupd]

/-- After a successful namespace reconciliation with `.spec.namespace` already
set, the reconcile continues unchanged. -/
theorem projectReconcile_after_some (env : ReconcileEnv) (p0 : ProjectState) (ns nsn : String)
    (hpend : env.updateStatusPending = none)
    (hns : env.reconcileNamespace = .ok ns)
    (hsn : p0.specNamespace = some nsn) :
    projectReconcile env p0 = reconcileAfterNamespace env p0.generation
      (if p0.phase = .noPhase then { p0 with phase := .pending } else p0) := by
  unfold projectReconcile
  by_cases hp : p0.phase = .noPhase <;> simp [hp, hpend, hns, hsn]

/-- C7: a failure of namespace reconciliation, of recording the namespace name
in `.spec.namespace`, of creating the chart renderer or applier, of applying
the project RBAC chart, or of deleting either legacy role binding sets the
project's status phase to Failed and returns that error; when all these steps
and the final status update succeed, the phase is set to Ready and
`status.observedGeneration` to the generation observed at entry. -/
theorem claim_C7 (env : ReconcileEnv) (p0 : ProjectState)
    (hpend : env.updateStatusPending = none) :
    (∀ e, env.reconcileNamespace = .error e →
      (projectReconcile env p0).1.phase = .failed ∧ (projectReconcile env p0).2 = some e)
    ∧ (∀ ns e, env.reconcileNamespace = .ok ns → p0.specNamespace = none →
        env.updateSpecNamespace = some e →
        (projectReconcile env p0).1.phase = .failed ∧ (projectReconcile env p0).2 = some e)
    ∧ (∀ ns e, env.reconcileNamespace = .ok ns →
        (p0.specNamespace = none → env.updateSpecNamespace = none) →
        env.newChartRenderer = some e →
        (projectReconcile env p0).1.phase = .failed ∧ (projectReconcile env p0).2 = some e)
    ∧ (∀ ns e, env.reconcileNamespace = .ok ns →
        (p0.specNamespace = none → env.updateSpecNamespace = none) →
        env.newChartRenderer = none → env.newApplier = some e →
        (projectReconcile env p0).1.phase = .failed ∧ (projectReconcile env p0).2 = some e)
    ∧ (∀ ns e, env.reconcileNamespace = .ok ns →
        (p0.specNamespace = none → env.updateSpecNamespace = none) →
        env.newChartRenderer = none → env.newApplier = none → env.applyChart = some e →
        (projectReconcile env p0).1.phase = .failed ∧ (projectReconcile env p0).2 = some e)
    ∧ (∀ ns e, env.reconcileNamespace = .ok ns →
        (p0.specNamespace = none → env.updateSpecNamespace = none) →
        env.newChartRenderer = none → env.newApplier = none → env.applyChart = none →
        env.deleteLegacyMemberBinding = some e →
        (projectReconcile env p0).1.phase = .failed ∧ (projectReconcile env p0).2 = some e)
    ∧ (∀ ns e, env.reconcileNamespace = .ok ns →
        (p0.specNamespace = none → env.updateSpecNamespace = none) →
        env.newChartRenderer = none → env.newApplier = none → env.applyChart = none →
        env.deleteLegacyMemberBinding = none → env.deleteLegacyViewerBinding = some e →
        (projectReconcile env p0).1.phase = .failed ∧ (projectReconcile env p0).2 = some e)
    ∧ (∀ ns, env.reconcileNamespace = .ok ns →
        (p0.specNamespace = none → env.updateSpecNamespace = none) →
        env.newChartRenderer = none → env.newApplier = none → env.applyChart = none →
        env.deleteLegacyMemberBinding = none → env.deleteLegacyViewerBinding = none →
        env.updateStatusReady = none →
        (projectReconcile env p0).2 = none
        ∧ (projectReconcile env p0).1.phase = .ready
        ∧ (projectReconcile env p0).1.observedGeneration = p0.generation) := by
  have hafter : ∀ ns, env.reconcileNamespace = .ok ns →
      (p0.specNamespace = none → env.updateSpecNamespace = none) →
      ∃ p1, projectReconcile env p0 = reconcileAfterNamespace env p0.generation p1 := by
    intro ns hns hupd
    cases hsn : p0.specNamespace with
    | none => exact ⟨_, projectReconcile_after_none env p0 ns hpend hns hsn (hupd hsn)⟩
    | some nsn => exact ⟨_, projectReconcile_after_some env p0 ns nsn hpend hns hsn⟩
  refine ⟨fun e he => ?_, fun ns e hns hsn hupd => ?_, fun ns e hns hupd hcr => ?_,
    fun ns e hns hupd hcr hap => ?_, fun ns e hns hupd hcr hap hch => ?_,
    fun ns e hns hupd hcr hap hch hd1 => ?_, fun ns e hns hupd hcr hap hch hd1 hd2 => ?_,
    fun ns hns hupd hcr hap hch hd1 hd2 hrd => ?_⟩
  · unfold projectReconcile
    by_cases hp : p0.phase = .noPhase <;> simp [hp, hpend, he]
  · unfold projectReconcile
    by_cases hp : p0.phase = .noPhase <;> simp [hp, hpend, hns, hsn, hupd]
  · obtain ⟨p1, hp1⟩ := hafter ns hns hupd
    rw [hp1]
    unfold reconcileAfterNamespace
    simp [hcr]
  · obtain ⟨p1, hp1⟩ := hafter ns hns hupd
    rw [hp1]
    unfold reconcileAfterNamespace
    simp [hcr, hap]
  · obtain ⟨p1, hp1⟩ := hafter ns hns hupd
    rw [hp1]
    unfold reconcileAfterNamespace
    simp [hcr, hap, hch]
  · obtain ⟨p1, hp1⟩ := hafter ns hns hupd
    rw [hp1]
    unfold reconcileAfterNamespace
    simp [hcr, hap, hch, hd1]
  · obtain ⟨p1, hp1⟩ := hafter ns hns hupd
    rw [hp1]
    unfold reconcileAfterNamespace
    simp [hcr, hap, hch, hd1, hd2]
  · obtain ⟨p1, hp1⟩ := hafter ns hns hupd
    rw [hp1]
    unfold reconcileAfterNamespace
    simp [hcr, hap, hch, hd1, hd2, hrd]

/-- Witness for C7 at concrete inputs: with every step succeeding, a project
at generation 4 ends Ready with observed generation 4; with a failing RBAC
chart application, it ends Failed with that error. -/
theorem claim_C7_witness :
    ((projectReconcile ⟨none, .ok "garden-dev-abc", none, none, none, none, none, none, none⟩
        ⟨4, .noPhase, none, 0⟩).2 = none
      ∧ (projectReconcile ⟨none, .ok "garden-dev-abc", none, none, none, none, none, none, none⟩
          ⟨4, .noPhase, none, 0⟩).1.phase = .ready
      ∧ (projectReconcile ⟨none, .ok "garden-dev-abc", none, none, none, none, none, none, none⟩
          ⟨4, .noPhase, none, 0⟩).1.observedGeneration = 4)
    ∧ ((projectReconcile
          ⟨none, .ok "garden-dev-abc", none, none, none, some "chart failed", none, none, none⟩
          ⟨4, .noPhase, none, 0⟩).1.phase = .failed
      ∧ (projectReconcile
          ⟨none, .ok "garden-dev-abc", none, none, none, some "chart failed", none, none, none⟩
          ⟨4, .noPhase, none, 0⟩).2 = some "chart failed") :=
  ⟨(claim_C7 ⟨none, .ok "garden-dev-abc", none, none, none, none, none, none, none⟩
      ⟨4, .noPhase, none, 0⟩ rfl).2.2.2.2.2.2.2 "garden-dev-abc" rfl (fun _ => rfl)
      rfl rfl rfl rfl rfl rfl,
   (claim_C7 ⟨none, .ok "garden-dev-abc", none, none, none, some "chart failed", none, none, none⟩
      ⟨4, .noPhase, none, 0⟩ rfl).2.2.2.2.1 "garden-dev-abc" "chart failed" rfl (fun _ => rfl)
      rfl rfl rfl⟩

/-- C8: the stale container-runtime cleanup issues a delete task for exactly
those deployed ContainerRuntime resources whose type is not among the types of
the shoot's configured container runtimes; deployed resources with a wanted
type are never deleted (the resulting task list is then run in parallel). -/
theorem claim_C8 (shootCRs deployed : List ContainerRuntimeRes) (n ns : String) :
    (n, ns) ∈ deleteStaleContainerRuntimeTasks shootCRs deployed ↔
      ∃ d ∈ deployed, d.name = n ∧ d.namespaceName = ns
        ∧ ∀ w ∈ shootCRs, w.ctype ≠ d.ctype := by
  simp only [deleteStaleContainerRuntimeTasks]
  rw [List.mem_filterMap]
  constructor
  · rintro ⟨d, hd, hf⟩
    by_cases hc : ((shootCRs.map (·.ctype)).contains d.ctype) = true
    · rw [if_pos hc] at hf
      cases hf
    · rw [if_neg hc] at hf
      refine ⟨d, hd, congrArg Prod.fst (Option.some.inj hf),
        congrArg Prod.snd (Option.some.inj hf), ?_⟩
      intro w hw heq
      apply hc
      rw [show ((shootCRs.map (·.ctype)).contains d.ctype)
          = ((shootCRs.map (·.ctype)).elem d.ctype) from rfl, List.elem_iff]
      exact List.mem_map.mpr ⟨w, hw, heq⟩
  · rintro ⟨d, hd, h1, h2, h3⟩
    refine ⟨d, hd, ?_⟩
    have hc : ((shootCRs.map (·.ctype)).contains d.ctype) = false := by
      by_contra hcc
      have : ((shootCRs.map (·.ctype)).contains d.ctype) = true := by
        cases hb : ((shootCRs.map (·.ctype)).contains d.ctype)
        · exact absurd hb hcc
        · rfl
      rw [show ((shootCRs.map (·.ctype)).contains d.ctype)
          = ((shootCRs.map (·.ctype)).elem d.ctype) from rfl, List.elem_iff] at this
      obtain ⟨w, hw, heq⟩ := List.mem_map.mp this
      exact h3 w hw heq
    rw [if_neg (by intro hcc; rw [hc] at hcc; exact Bool.noConfusion hcc), h1, h2]

/-- Witness for C8 at concrete inputs: with a wanted type `gvisor`, the
deployed `kata` resource is deleted and the deployed `gvisor` resource is
not. -/
theorem claim_C8_witness :
    ("cr-old", "shoot--foo--bar") ∈ deleteStaleContainerRuntimeTasks
      [⟨"cr1", "shoot--foo--bar", "gvisor"⟩]
      [⟨"cr-old", "shoot--foo--bar", "kata"⟩, ⟨"cr1", "shoot--foo--bar", "gvisor"⟩]
    ∧ ¬ ("cr1", "shoot--foo--bar") ∈ deleteStaleContainerRuntimeTasks
      [⟨"cr1", "shoot--foo--bar", "gvisor"⟩]
      [⟨"cr-old", "shoot--foo--bar", "kata"⟩, ⟨"cr1", "shoot--foo--bar", "gvisor"⟩] :=
  ⟨(claim_C8 [⟨"cr1", "shoot--foo--bar", "gvisor"⟩]
      [⟨"cr-old", "shoot--foo--bar", "kata"⟩, ⟨"cr1", "shoot--foo--bar", "gvisor"⟩]
      "cr-old" "shoot--foo--bar").mpr
      ⟨⟨"cr-old", "shoot--foo--bar", "kata"⟩, by simp, rfl, rfl, by decide⟩,
   fun hmem => by
    obtain ⟨d, hd, h1, h2, h3⟩ := (claim_C8 [⟨"cr1", "shoot--foo--bar", "gvisor"⟩]
      [⟨"cr-old", "shoot--foo--bar", "kata"⟩, ⟨"cr1", "shoot--foo--bar", "gvisor"⟩]
      "cr1" "shoot--foo--bar").mp hmem
    rcases List.mem_cons.mp hd with rfl | hd'
    · exact absurd h1 (by decide)
    · rcases List.mem_cons.mp hd' with rfl | hd''
      · exact h3 ⟨"cr1", "shoot--foo--bar", "gvisor"⟩ (by simp) rfl
      · exact absurd hd'' (by simp)⟩

/-- C9: on CREATE, the ShootValidator rejects with a bad-request error
whenever the combined project+shoot name length exceeds 21 characters, and
whenever the project name contains two consecutive hyphens; neither check is
applied on UPDATE operations. -/
theorem claim_C9 (op : Operation) (projectName shootName : Str) (projectDeleting : Bool) :
    (op = .create → (projectName ++ shootName).length > 21 →
      shootCreateGate op projectName shootName projectDeleting = some .nameTooLong)
    ∧ (op = .create → containsDoubleHyphen projectName = true →
      ∃ e, shootCreateGate op projectName shootName projectDeleting = some e
        ∧ e.isBadRequest = true)
    ∧ (op = .update → shootCreateGate op projectName shootName projectDeleting = none) := by
  refine ⟨fun hop hlen => ?_, fun hop hdh => ?_, fun hop => ?_⟩
  · subst hop
    unfold shootCreateGate shootCreateChecks
    rw [if_pos hlen]
  · subst hop
    unfold shootCreateGate shootCreateChecks
    by_cases hlen : (projectName ++ shootName).length > 21
    · rw [if_pos hlen]
      exact ⟨.nameTooLong, rfl, rfl⟩
    · rw [if_neg hlen, if_pos hdh]
      exact ⟨.consecutiveHyphens, rfl, rfl⟩
  · subst hop
    rfl

/-- Witness for C9 at concrete inputs: a 27-character combined name is
rejected on CREATE, a project name with `--` is rejected on CREATE with a
bad-request error, and both pass untouched on UPDATE. -/
theorem claim_C9_witness :
    shootCreateGate .create "myproject".toList "averylongshootname".toList false
      = some .nameTooLong
    ∧ (∃ e, shootCreateGate .create "my--proj".toList "s".toList false = some e
        ∧ e.isBadRequest = true)
    ∧ shootCreateGate .update "myproject".toList "averylongshootname".toList false = none :=
  ⟨(claim_C9 .create "myproject".toList "averylongshootname".toList false).1 rfl (by decide),
   (claim_C9 .create "my--proj".toList "s".toList false).2.1 rfl (by decide),
   (claim_C9 .update "myproject".toList "averylongshootname".toList false).2.2 rfl⟩

/-- Membership characterisation of the immutable-field check. -/
theorem mem_validateImmutableField {α : Type} [DecidableEq α] (newVal oldVal : α)
    (path e : SeedUpdateErrorPath) :
    e ∈ validateImmutableField newVal oldVal path ↔ newVal ≠ oldVal ∧ e = path := by
  unfold validateImmutableField
  split <;> simp_all

/-- C10: `ValidateSeedSpecUpdate` reports an immutability error exactly when
the pods or services network CIDR changes, or the nodes CIDR changes while
previously set; a backup section may be added when previously absent without
any backup error, while a present backup section's provider and region are
immutable. -/
theorem claim_C10 (newSpec oldSpec : SeedSpec) :
    (SeedUpdateErrorPath.networksPods ∈ ValidateSeedSpecUpdate newSpec oldSpec ↔
      newSpec.networks.pods ≠ oldSpec.networks.pods)
    ∧ (SeedUpdateErrorPath.networksServices ∈ ValidateSeedSpecUpdate newSpec oldSpec ↔
      newSpec.networks.services ≠ oldSpec.networks.services)
    ∧ (SeedUpdateErrorPath.networksNodes ∈ ValidateSeedSpecUpdate newSpec oldSpec ↔
      oldSpec.networks.nodes.isSome = true
        ∧ newSpec.networks.nodes ≠ oldSpec.networks.nodes)
    ∧ (oldSpec.backup = none →
        ∀ e ∈ ValidateSeedSpecUpdate newSpec oldSpec,
          e = .networksPods ∨ e = .networksServices ∨ e = .networksNodes)
    ∧ (∀ ob nb, oldSpec.backup = some ob → newSpec.backup = some nb →
        ((SeedUpdateErrorPath.backupProvider ∈ ValidateSeedSpecUpdate newSpec oldSpec ↔
            nb.provider ≠ ob.provider)
          ∧ (SeedUpdateErrorPath.backupRegion ∈ ValidateSeedSpecUpdate newSpec oldSpec ↔
            nb.region ≠ ob.region))) := by
  refine ⟨?_, ?_, ?_, fun hob e he => ?_, fun ob nb hob hnb => ?_⟩
  · rcases hob : oldSpec.backup with _ | ob
    · by_cases hn : oldSpec.networks.nodes.isSome = true <;>
        simp [ValidateSeedSpecUpdate, mem_validateImmutableField, hob, hn]
    · rcases hnb : newSpec.backup with _ | nb <;>
        by_cases hn : oldSpec.networks.nodes.isSome = true <;>
        simp [ValidateSeedSpecUpdate, mem_validateImmutableField, hob, hnb, hn]
  · rcases hob : oldSpec.backup with _ | ob
    · by_cases hn : oldSpec.networks.nodes.isSome = true <;>
        simp [ValidateSeedSpecUpdate, mem_validateImmutableField, hob, hn]
    · rcases hnb : newSpec.backup with _ | nb <;>
        by_cases hn : oldSpec.networks.nodes.isSome = true <;>
        simp [ValidateSeedSpecUpdate, mem_validateImmutableField, hob, hnb, hn]
  · rcases hob : oldSpec.backup with _ | ob
    · by_cases hn : oldSpec.networks.nodes.isSome = true <;>
        simp [ValidateSeedSpecUpdate, mem_validateImmutableField, hob, hn]
    · rcases hnb : newSpec.backup with _ | nb <;>
        by_cases hn : oldSpec.networks.nodes.isSome = true <;>
        simp [ValidateSeedSpecUpdate, mem_validateImmutableField, hob, hnb, hn]
  · by_cases hn : oldSpec.networks.nodes.isSome = true <;>
      (simp [ValidateSeedSpecUpdate, mem_validateImmutableField, hob, hn] at he; tauto)
  · by_cases hn : oldSpec.networks.nodes.isSome = true <;>
      simp [ValidateSeedSpecUpdate, mem_validateImmutableField, hob, hnb, hn]

/-- Witness for C10 at concrete inputs: changing the pods CIDR is reported at
the pods path, an unchanged spec yields no error, adding a backup section is
allowed, and changing the backup provider is reported. -/
theorem claim_C10_witness :
    (SeedUpdateErrorPath.networksPods ∈ ValidateSeedSpecUpdate
        ⟨⟨none, "10.0.0.0/16".toList, "10.1.0.0/16".toList⟩, none⟩
        ⟨⟨none, "10.9.0.0/16".toList, "10.1.0.0/16".toList⟩, none⟩)
    ∧ (∀ e ∈ ValidateSeedSpecUpdate
        ⟨⟨none, "10.0.0.0/16".toList, "10.1.0.0/16".toList⟩,
          some ⟨"aws".toList, none⟩⟩
        ⟨⟨none, "10.0.0.0/16".toList, "10.1.0.0/16".toList⟩, none⟩,
          e = .networksPods ∨ e = .networksServices ∨ e = .networksNodes)
    ∧ (SeedUpdateErrorPath.backupProvider ∈ ValidateSeedSpecUpdate
        ⟨⟨none, "10.0.0.0/16".toList, "10.1.0.0/16".toList⟩,
          some ⟨"gcp".toList, none⟩⟩
        ⟨⟨none, "10.0.0.0/16".toList, "10.1.0.0/16".toList⟩,
          some ⟨"aws".toList, none⟩⟩) :=
  ⟨(claim_C10 ⟨⟨none, "10.0.0.0/16".toList, "10.1.0.0/16".toList⟩, none⟩
      ⟨⟨none, "10.9.0.0/16".toList, "10.1.0.0/16".toList⟩, none⟩).1.mpr (by decide),
   (claim_C10 ⟨⟨none, "10.0.0.0/16".toList, "10.1.0.0/16".toList⟩,
        some ⟨"aws".toList, none⟩⟩
      ⟨⟨none, "10.0.0.0/16".toList, "10.1.0.0/16".toList⟩, none⟩).2.2.2.1 rfl,
   ((claim_C10 ⟨⟨none, "10.0.0.0/16".toList, "10.1.0.0/16".toList⟩,
        some ⟨"gcp".toList, none⟩⟩
      ⟨⟨none, "10.0.0.0/16".toList, "10.1.0.0/16".toList⟩,
        some ⟨"aws".toList, none⟩⟩).2.2.2.2 ⟨"aws".toList, none⟩ ⟨"gcp".toList, none⟩
      rfl rfl).1.mpr (by decide)⟩

end Gardener
